import Mathlib

/-!
Shallow embedding of the Dioxus fullstack Axum gateway
(`packages/fullstack/src/server/mod.rs`): the server-function dispatcher
(`handle_server_fns_inner`), the SSR render handler (`render_handler`),
route-table registration (`register_server_functions_with_context`) and
application composition (`serve_dioxus_application`).

Conventions of the embedding:
* Header values are byte lists (`http::HeaderValue` stores raw bytes);
  `HeaderValue::to_str` succeeds exactly on visible-ASCII bytes.
* Header names are compared case-insensitively by `http::HeaderMap`; we
  represent names already normalised to lowercase strings, so plain string
  equality models the map's name comparison.
* A `HeaderMap` is the list of its (name, value) entries in insertion
  order; this is the multimap view of `http::HeaderMap`.
-/

namespace DioxusGateway

/-- A header name, normalised to lowercase (http::HeaderMap compares names
case-insensitively and stores them lowercased). -/
abbrev HeaderName := String

/-- A header value: the raw bytes of an `http::HeaderValue`. -/
abbrev HeaderValue := List Nat

/-- `is_visible_ascii` from the `http` crate: the bytes on which
`HeaderValue::to_str` succeeds. -/
def visibleAscii (b : Nat) : Bool :=
  (decide (32 ≤ b) && decide (b < 127)) || b == 9

/-- `HeaderValue::to_str`: succeeds iff every byte is visible ASCII, in which
case the bytes are read as characters. -/
def headerValueToStr (v : HeaderValue) : Option String :=
  if v.all visibleAscii then some (String.mk (v.map Char.ofNat)) else none

/-- Build a header value from an ASCII string (test/witness helper mirroring
`HeaderValue::from_static`). -/
def hv (s : String) : HeaderValue :=
  s.toList.map Char.toNat

/-- Rust `str::contains` with a string pattern: substring containment. -/
def containsSubstr (hay pat : String) : Bool :=
  decide (pat.toList <:+: hay.toList)

/-- ASCII lowercasing of one character (`u8::to_ascii_lowercase`). -/
def asciiLowerChar (c : Char) : Char :=
  if 'A' ≤ c && c ≤ 'Z' then Char.ofNat (c.toNat + 32) else c

/-- Rust `str::to_ascii_lowercase`: lowercase every ASCII letter, leave all
other characters unchanged. -/
def asciiLower (s : String) : String :=
  String.mk (s.toList.map asciiLowerChar)

/-- A header multimap: the entries of an `http::HeaderMap` in insertion
order. -/
abbrev HeaderMap := List (HeaderName × HeaderValue)

namespace HeaderMap

/-- `HeaderMap::get`: the first value stored under a name. -/
def get (m : HeaderMap) (n : HeaderName) : Option HeaderValue :=
  (m.find? (fun e => e.1 == n)).map (fun e => e.2)

/-- All values stored under a name, in insertion order (the value bucket of
`http::HeaderMap`). -/
def getAll (m : HeaderMap) (n : HeaderName) : List HeaderValue :=
  (m.filter (fun e => e.1 == n)).map (fun e => e.2)

/-- `HeaderMap::insert`: drop every value previously stored under the name
and store the single new value. -/
def insert (m : HeaderMap) (n : HeaderName) (v : HeaderValue) : HeaderMap :=
  m.filter (fun e => e.1 != n) ++ [(n, v)]

/-- `HeaderMap::drain`: take ownership of all entries and leave the map
empty. -/
def drain (m : HeaderMap) : (List (HeaderName × HeaderValue)) × HeaderMap :=
  (m, [])

/-- `res.headers_mut().extend(staged.drain())` from the `http` crate: for
every name present in the drained entries, the target's values under that
name are replaced by the drained values; names absent from the drained
entries are untouched.  (The `Extend` impl replaces on the first value of a
name and appends the bucket's remaining values; entry order across distinct
names is not observed by any property below, so the drained entries are
appended in insertion order.) -/
def extendDrained (res staged : HeaderMap) : HeaderMap :=
  res.filter (fun e => staged.all (fun s => s.1 != e.1)) ++ staged

end HeaderMap

/-- The URI of a request; `pathAndQuery` is `http::Uri::path_and_query`,
absent for URIs with neither a path nor a query component. -/
structure Uri where
  pathAndQuery : Option String
  deriving Repr, DecidableEq

/-- `http::request::Parts`: the request head.  `requestId` models the
identity of the inbound request (the spec's invariant that exactly one
ServerContext is constructed per inbound request lets distinct requests be
told apart). -/
structure Parts where
  requestId : Nat
  uri : Uri
  headers : HeaderMap
  deriving Repr, DecidableEq

/-- An `http::Request` split into head and body. -/
structure Request where
  parts : Parts
  body : String
  deriving Repr, DecidableEq

/-- An `http::Response`: status code, headers, body. -/
structure Response where
  status : Nat
  headers : HeaderMap
  body : String
  deriving Repr, DecidableEq

/-- Modelled from the spec: `DioxusServerContext` (its definition lives in
`packages/fullstack/src/server_context.rs`, not under `src/`).  Per-request
shared state: inbound request parts, the staged outbound response header
multimap (`response_parts_mut().headers`), and the injected context values.
Injected values are modelled as `Nat` identifiers of type-erased
`Box<dyn Any>` instances. -/
structure DioxusServerContext where
  requestParts : Parts
  responseHeaders : HeaderMap
  injected : List Nat
  deriving Repr, DecidableEq

namespace DioxusServerContext

/-- `DioxusServerContext::new(parts)`: fresh context with empty staged
response and no injected values. -/
def new (parts : Parts) : DioxusServerContext :=
  { requestParts := parts, responseHeaders := [], injected := [] }

/-- `DioxusServerContext::from_shared_parts(parts)`: same fresh state, built
from an already-shared handle on the render path. -/
def from_shared_parts (parts : Parts) : DioxusServerContext :=
  { requestParts := parts, responseHeaders := [], injected := [] }

end DioxusServerContext

/-- A context-provider factory (`Box<dyn Fn() -> Box<dyn Any>>`).  The
source factory takes no argument; the `Nat` argument models the identity of
the invocation that materialises the instance (a factory returning a shared
handle is one that ignores it). -/
abbrev Factory := Nat → Nat

/-- The injection closure built in `register_server_functions_with_context`
(mod.rs lines 192–198): `for index in 0..context_providers.len()`, insert
the value produced by invoking `context_providers[index]` for this request.
`insert_boxed_factory` is modelled from the spec (one call per registry
entry, each inserting its factory's produced value) as appending the
produced value to the context's injected list. -/
def provider_injection (providers : List Factory) (ctx : DioxusServerContext) :
    DioxusServerContext :=
  providers.foldl
    (fun c f => { c with injected := c.injected ++ [f c.requestParts.requestId] }) ctx

/-- Capture of `accepts_html` in `handle_server_fns_inner` (mod.rs lines
431–436): the Accept header, if present and convertible via `to_str`,
contains `"text/html"` — a case-sensitive byte-for-byte substring check. -/
def captureAcceptsHtml (headers : HeaderMap) : Bool :=
  match (headers.get "accept").bind headerValueToStr with
  | some s => containsSubstr s "text/html"
  | none => false

/-- The redirect heuristic of `handle_server_fns_inner` (mod.rs lines
444–452): if the captured Accept indicated HTML and a Referer was captured
and the response has no Location header, rewrite to 302 Found with Location
set to the Referer; otherwise leave the response untouched. -/
def redirectStep (accepts_html : Bool) (referrer : Option HeaderValue)
    (res : Response) : Response :=
  if accepts_html then
    match referrer with
    | some r =>
      if (res.headers.get "location").isSome then res
      else { res with status := 302, headers := res.headers.insert "location" r }
    | none => res
  else res

/-- A registered server-function service (`server_fn`'s `Service::run`
driven inside `ProvideServerContext`): it consumes the request and may read
and mutate the server context (e.g. stage response headers), producing a
response and the updated context. -/
abbrev ServerFnService := Request → DioxusServerContext → Response × DioxusServerContext

/-- The diagnostic guidance appended to the 400 body for an unregistered
path (non-wasm variant, mod.rs lines 470–472): it suggests a stale client
build or a mismatched route prefix. -/
def notFoundDiagnostic : String :=
  "\nYou may need to rebuild your wasm binary to update a server function link or make sure the prefix your server and client use for server functions match."

/-- The 400 body of `handle_server_fns_inner` for an unregistered path:
it names the missing path and carries the diagnostic guidance. -/
def notFoundBody (path : String) : String :=
  "No server function found for path: " ++ path ++ notFoundDiagnostic

/-- The observable outcome of one function-path dispatch.
`contextAtInvocation` is the context exactly as handed to the service
(recorded for specification purposes only); `contextAfter` is the context
after the gateway drained its staged headers. -/
structure FnDispatchResult where
  contextConstructed : Bool
  functionInvoked : Bool
  contextAtInvocation : Option DioxusServerContext
  response : Response
  contextAfter : Option DioxusServerContext
  deriving Repr, DecidableEq

/-- `handle_server_fns_inner` (mod.rs lines 411–478, non-wasm execution
branch): look up the service registered for `path`; if absent, answer a
fixed 400 naming the path, constructing no context and invoking nothing.
If present: build a fresh `DioxusServerContext` from the request parts,
apply the provider injection, capture `accepts_html` and the Referer, run
the service, apply the redirect heuristic, then drain the context's staged
headers into the response. -/
def handle_server_fns_inner (registry : String → Option ServerFnService)
    (providers : List Factory) (path : String) (req : Request) : FnDispatchResult :=
  match registry path with
  | some service =>
    let server_context := provider_injection providers (DioxusServerContext.new req.parts)
    let accepts_html := captureAcceptsHtml req.parts.headers
    let referrer := req.parts.headers.get "referer"
    let invoked := service req server_context
    let res := redirectStep accepts_html referrer invoked.1
    let drained := HeaderMap.drain invoked.2.responseHeaders
    { contextConstructed := true
      functionInvoked := true
      contextAtInvocation := some server_context
      response := { res with headers := HeaderMap.extendDrained res.headers drained.1 }
      contextAfter := some { invoked.2 with responseHeaders := drained.2 } }
  | none =>
    { contextConstructed := false
      functionInvoked := false
      contextAtInvocation := none
      response := { status := 400, headers := [], body := notFoundBody path }
      contextAfter := none }

/-- Opaque render configuration (`ServeConfig`); its contents are consumed
opaquely by the render engine. -/
structure Config where
  id : Nat := 0
  deriving Repr, DecidableEq

/-- The shared render engine (`SSRState::render` lives outside `src/`): it
consumes the url, the configuration and the server context, and either
fails with a diagnostic message or produces the stream's response (status,
headers, body chunks flattened) together with the context as mutated by
application code during rendering. -/
abbrev RenderFn := String → Config → DioxusServerContext →
  Except String (Response × DioxusServerContext)

/-- `RenderHandleState`: configuration plus the render engine (the
`VirtualDom` factory and lazy `SSRState` are folded into `renderFn`, which
is what `state.ssr_state().render(...)` evaluates to). -/
structure RenderHandleState where
  config : Config
  renderFn : RenderFn

/-- Which exit `render_handler` took. -/
inductive RenderOutcome where
  | notAcceptable
  | badUri
  | renderFailed (msg : String)
  | rendered
  deriving Repr, DecidableEq

/-- The observable outcome of one render-path request.  `contextAfter` is
the server context as it stands when the response is returned (its staged
headers in particular). -/
structure RenderResult where
  outcome : RenderOutcome
  response : Response
  contextConstructed : Bool
  renderInvoked : Bool
  contextAfter : Option DioxusServerContext

/-- The Accept check of `render_handler` (mod.rs lines 367–373): if an
Accept header is present, its value must convert via `to_str`, be ASCII
lowercased, and contain `"text/html"`; an absent Accept header passes. -/
def renderAccepts (headers : HeaderMap) : Bool :=
  match headers.get "accept" with
  | some mime =>
    match (headerValueToStr mime).map asciiLower with
    | some accepts => containsSubstr accepts "text/html"
    | none => false
  | none => true

/-- `render_handler` (mod.rs lines 363–408): reject non-HTML Accept with
406 (empty body); reject a URI without path-and-query with 400 (empty
body); otherwise build a `DioxusServerContext` from the shared parts, run
the render engine (failure → 500 with `"Error: "` + message), and finally
copy every staged context header into the response with
`headers_mut().insert` — iterating, not draining, so the staged headers are
left in place. -/
def render_handler (state : RenderHandleState) (request : Request) : RenderResult :=
  if renderAccepts request.parts.headers then
    match request.parts.uri.pathAndQuery with
    | none =>
      { outcome := .badUri
        response := { status := 400, headers := [], body := "" }
        contextConstructed := false
        renderInvoked := false
        contextAfter := none }
    | some url =>
      let server_context := DioxusServerContext.from_shared_parts request.parts
      match state.renderFn url state.config server_context with
      | .error err =>
        { outcome := .renderFailed err
          response := { status := 500, headers := [], body := "Error: " ++ err }
          contextConstructed := true
          renderInvoked := true
          contextAfter := none }
      | .ok (streamRes, ctx) =>
        { outcome := .rendered
          response := { streamRes with
            headers := ctx.responseHeaders.foldl
              (fun h e => HeaderMap.insert h e.1 e.2) streamRes.headers }
          contextConstructed := true
          renderInvoked := true
          contextAfter := some ctx }
  else
    { outcome := .notAcceptable
      response := { status := 406, headers := [], body := "" }
      contextConstructed := false
      renderInvoked := false
      contextAfter := none }

/-- HTTP methods relevant to server-function registration. -/
inductive Method where
  | GET
  | POST
  | PUT
  | DELETE
  | PATCH
  deriving Repr, DecidableEq

/-- Display name of a method, for the registration error message. -/
def Method.name : Method → String
  | .GET => "GET"
  | .POST => "POST"
  | .PUT => "PUT"
  | .DELETE => "DELETE"
  | .PATCH => "PATCH"

/-- One route-table entry: exact path and exact method. -/
structure RouteEntry where
  path : String
  method : Method
  deriving Repr, DecidableEq

/-- The Axum router under construction: nested static-asset services,
server-function routes, and whether a render fallback handler is
registered. -/
structure Router where
  staticRoutes : List String
  fnRoutes : List RouteEntry
  fallback : Bool
  deriving Repr, DecidableEq

/-- `Router::new()`: no routes, no fallback. -/
def Router.new : Router :=
  { staticRoutes := [], fnRoutes := [], fallback := false }

/-- `register_server_functions_with_context` (mod.rs lines 180–211), route
aspect: for every registered `(path, method)` pair add one route at the
exact path with the exact method for GET/POST/PUT; any other method hits
`unimplemented!` while the router is being built, modelled as an error
result carrying the panic message. -/
def register_server_functions_with_context (self : Router) :
    List (String × Method) → Except String Router
  | [] => .ok self
  | (path, method) :: rest =>
    match method with
    | .GET => register_server_functions_with_context
        { self with fnRoutes := self.fnRoutes ++ [{ path := path, method := .GET }] } rest
    | .POST => register_server_functions_with_context
        { self with fnRoutes := self.fnRoutes ++ [{ path := path, method := .POST }] } rest
    | .PUT => register_server_functions_with_context
        { self with fnRoutes := self.fnRoutes ++ [{ path := path, method := .PUT }] } rest
    | m => .error ("Unsupported server function method: " ++ m.name)

/-- `serve_static_assets` (mod.rs lines 213–255): nests one service per
entry of the public directory.  The filesystem enumeration is abstracted as
the input list of route paths. -/
def serve_static_assets (self : Router) (assets : List String) : Router :=
  { self with staticRoutes := self.staticRoutes ++ assets }

/-- `serve_dioxus_application` (mod.rs lines 257–278): serve static assets
and register the server functions; then, if the configuration converts,
install the render fallback, and if the conversion fails, merely log the
error and return the router without any fallback. -/
def serve_dioxus_application (self : Router) (assets : List String)
    (registered : List (String × Method)) (cfg : Except String Config) :
    Except String Router :=
  match register_server_functions_with_context (serve_static_assets self assets) registered with
  | .error e => .error e
  | .ok server =>
    match cfg with
    | .ok _ => .ok { server with fallback := true }
    | .error _ => .ok server

/-- Whether a request path starts with a nested route's path. -/
def strStartsWith (s p : String) : Bool :=
  decide (p.toList <+: s.toList)

/-- Whether the composed router handles a request at all: an exact
function-route match, a static nest match (`nest_service` matches by path
segment), or the fallback. -/
def Router.handles (r : Router) (path : String) (method : Method) : Bool :=
  r.fnRoutes.any (fun e => e.path == path && e.method == method) ||
    r.staticRoutes.any (fun p => strStartsWith path p) ||
    r.fallback

/-! ### Helper lemmas -/

/-- `find?` ignores a filter that keeps everything the search predicate
accepts. -/
theorem find?_filter_of_imp {α : Type} (p q : α → Bool) (l : List α)
    (h : ∀ e, p e = true → q e = true) : (l.filter q).find? p = l.find? p := by
  induction l with
  | nil => rfl
  | cons a t ih =>
    by_cases hq : q a = true
    · rw [List.filter_cons_of_pos hq]
      cases hp : p a with
      | true => simp [List.find?, hp]
      | false => simp [List.find?, hp, ih]
    · have hp : p a = false := by
        cases hpa : p a with
        | true => exact absurd (h a hpa) hq
        | false => rfl
      rw [List.filter_cons_of_neg (by simp [hq])]
      simp [List.find?, hp, ih]

/-- `find?` fails on a filter that drops everything the search predicate
accepts. -/
theorem find?_filter_of_excl {α : Type} (p q : α → Bool) (l : List α)
    (h : ∀ e, p e = true → q e = false) : (l.filter q).find? p = none := by
  rw [List.find?_eq_none]
  intro x hx hp
  have hq := (List.mem_filter.mp hx).2
  rw [h x hp] at hq
  exact Bool.false_ne_true hq

namespace HeaderMap

theorem getAll_nil (n : HeaderName) : getAll [] n = [] := rfl

theorem getAll_cons (e : HeaderName × HeaderValue) (m : HeaderMap) (n : HeaderName) :
    getAll (e :: m) n = if e.1 == n then e.2 :: getAll m n else getAll m n := by
  by_cases h : e.1 == n
  · simp [getAll, List.filter_cons, h]
  · simp [getAll, List.filter_cons, h]

theorem getAll_append (m₁ m₂ : HeaderMap) (n : HeaderName) :
    getAll (m₁ ++ m₂) n = getAll m₁ n ++ getAll m₂ n := by
  simp [getAll, List.filter_append]

theorem get_append (m₁ m₂ : HeaderMap) (n : HeaderName) :
    get (m₁ ++ m₂) n = (get m₁ n).or (get m₂ n) := by
  simp [get, List.find?_append]
  cases m₁.find? (fun e => e.1 == n) <;> simp

theorem get_insert_self (m : HeaderMap) (n : HeaderName) (v : HeaderValue) :
    get (insert m n v) n = some v := by
  rw [insert, get, List.find?_append]
  have h1 : (m.filter (fun e => e.1 != n)).find? (fun e => e.1 == n) = none := by
    apply find?_filter_of_excl
    intro e he
    simp only [bne, he, Bool.not_true]
  simp [h1, List.find?]

theorem getAll_insert_self (m : HeaderMap) (n : HeaderName) (v : HeaderValue) :
    getAll (insert m n v) n = [v] := by
  rw [insert, getAll, List.filter_append]
  have h1 : List.filter (fun (e : HeaderName × HeaderValue) => e.1 == n)
      (List.filter (fun (e : HeaderName × HeaderValue) => e.1 != n) m) = [] := by
    rw [List.filter_eq_nil_iff]
    intro e he
    have hq := (List.mem_filter.mp he).2
    cases hp : (e.1 == n) with
    | true => simp [bne, hp] at hq
    | false => simp [hp]
  rw [h1]
  simp [List.filter]

theorem getAll_insert_ne (m : HeaderMap) (n' n : HeaderName) (v : HeaderValue)
    (h : (n' == n) = false) : getAll (insert m n' v) n = getAll m n := by
  rw [insert, getAll, List.filter_append]
  have h2 : List.filter (fun (e : HeaderName × HeaderValue) => e.1 == n) [(n', v)] = [] := by
    simp only [List.filter, h]
  rw [h2, List.append_nil, List.filter_filter, getAll]
  congr 1
  apply List.filter_congr
  intro e _
  cases he : (e.1 == n) with
  | true =>
    have h1 : e.1 = n := by simpa using he
    have hne : (e.1 != n') = true := by
      subst h1
      simp only [bne]
      cases hnn : (e.1 == n') with
      | true =>
        have : e.1 = n' := by simpa using hnn
        rw [this] at h
        simp at h
      | false => rfl
    simp [hne, he]
  | false => simp [he]

theorem mem_extendDrained_of_mem_staged (res staged : HeaderMap)
    (e : HeaderName × HeaderValue) (h : e ∈ staged) : e ∈ extendDrained res staged :=
  List.mem_append_right _ h

theorem get_extendDrained_of_not_staged (res staged : HeaderMap) (n : HeaderName)
    (h : staged.all (fun s => s.1 != n) = true) :
    get (extendDrained res staged) n = get res n := by
  rw [extendDrained, get, List.find?_append]
  have h2 : staged.find? (fun e => e.1 == n) = none := by
    rw [List.find?_eq_none]
    intro x hx hp
    have hb := List.all_eq_true.mp h x hx
    simp only [bne, hp, Bool.not_true] at hb
    exact Bool.false_ne_true hb
  have h1 : (res.filter (fun e => staged.all (fun s => s.1 != e.1))).find?
      (fun e => e.1 == n) = res.find? (fun e => e.1 == n) := by
    apply find?_filter_of_imp
    intro e he
    have he1 : e.1 = n := by simpa using he
    rw [he1]
    exact h
  rw [h1, h2]
  cases hf : res.find? (fun e => e.1 == n) <;> simp [get, hf]

end HeaderMap

/-- The render-path header merge (`insert` per staged entry, in iteration
order): for every name staged at least once the final bucket holds exactly
the last staged value, and names never staged keep the target's values. -/
theorem foldl_insert_getAll (l : HeaderMap) (r : HeaderMap) (n : HeaderName) :
    HeaderMap.getAll (l.foldl (fun h e => HeaderMap.insert h e.1 e.2) r) n =
      ((HeaderMap.getAll l n).getLast?).elim (HeaderMap.getAll r n) (fun v => [v]) := by
  induction l generalizing r with
  | nil => simp [HeaderMap.getAll]
  | cons e t ih =>
    rw [List.foldl_cons, ih, HeaderMap.getAll_cons]
    by_cases hb : e.1 = n
    · subst hb
      rw [if_pos (by simp)]
      cases ht : HeaderMap.getAll t e.1 with
      | nil => simp [ht, HeaderMap.getAll_insert_self]
      | cons x xs =>
        rw [List.getLast?_cons_cons]
        cases hxl : (x :: xs).getLast? with
        | none => simp [List.getLast?_eq_none_iff] at hxl
        | some v => simp [hxl]
    · have hb2 : (e.1 == n) = false := by simpa using hb
      rw [if_neg (by simp [hb2])]
      cases ht : (HeaderMap.getAll t n).getLast? with
      | some v => simp [ht]
      | none => simp [ht, HeaderMap.getAll_insert_ne r e.1 n e.2 hb2]


/-- The provider-injection loop appends exactly one produced value per
registry entry, in registry order, invoking each factory for this
request; nothing else in the context changes. -/
theorem provider_injection_eq (ps : List Factory) (ctx : DioxusServerContext) :
    provider_injection ps ctx =
      { ctx with injected :=
          ctx.injected ++ ps.map (fun f => f ctx.requestParts.requestId) } := by
  induction ps generalizing ctx with
  | nil => simp [provider_injection]
  | cons f t ih =>
    rw [provider_injection, List.foldl_cons]
    rw [show (List.foldl
        (fun c g => { c with injected := c.injected ++ [g c.requestParts.requestId] })
        { ctx with injected := ctx.injected ++ [f ctx.requestParts.requestId] } t) =
      provider_injection t
        { ctx with injected := ctx.injected ++ [f ctx.requestParts.requestId] } from rfl]
    rw [ih]
    simp

/-- Route registration succeeds when every method is GET, POST or PUT, and
adds exactly one entry per registration at the exact path and method. -/
theorem register_ok_of_allowed (regs : List (String × Method)) (self : Router)
    (h : ∀ pm ∈ regs, pm.2 = Method.GET ∨ pm.2 = Method.POST ∨ pm.2 = Method.PUT) :
    register_server_functions_with_context self regs =
      .ok { self with fnRoutes :=
        self.fnRoutes ++ regs.map (fun pm => { path := pm.1, method := pm.2 }) } := by
  induction regs generalizing self with
  | nil => simp [register_server_functions_with_context]
  | cons pm t ih =>
    obtain ⟨p, m⟩ := pm
    have hm := h (p, m) (List.mem_cons_self _ _)
    have ht : ∀ q ∈ t, q.2 = Method.GET ∨ q.2 = Method.POST ∨ q.2 = Method.PUT :=
      fun q hq => h q (List.mem_cons_of_mem _ hq)
    rcases hm with hm | hm | hm <;> simp only at hm <;> subst hm <;>
      simp [register_server_functions_with_context, ih _ ht]

/-- If route registration returned a router at all, that router is the
input with exactly one entry appended per registration (and every other
field untouched). -/
theorem register_ok_inv (regs : List (String × Method)) (self server : Router)
    (h : register_server_functions_with_context self regs = .ok server) :
    server = { self with fnRoutes :=
      self.fnRoutes ++ regs.map (fun pm => { path := pm.1, method := pm.2 }) } := by
  induction regs generalizing self with
  | nil =>
    simp [register_server_functions_with_context] at h
    simp [← h]
  | cons pm t ih =>
    obtain ⟨p, m⟩ := pm
    cases m with
    | GET =>
      rw [register_server_functions_with_context] at h
      have hs := ih _ h
      simp [hs]
    | POST =>
      rw [register_server_functions_with_context] at h
      have hs := ih _ h
      simp [hs]
    | PUT =>
      rw [register_server_functions_with_context] at h
      have hs := ih _ h
      simp [hs]
    | DELETE => simp [register_server_functions_with_context] at h
    | PATCH => simp [register_server_functions_with_context] at h

/-- A registration list containing any method other than GET, POST or PUT
makes route registration fail while the router is being built. -/
theorem register_error_of_bad (regs : List (String × Method)) (self : Router)
    (pm : String × Method) (hmem : pm ∈ regs)
    (hbad : pm.2 ≠ Method.GET ∧ pm.2 ≠ Method.POST ∧ pm.2 ≠ Method.PUT) :
    ∃ e, register_server_functions_with_context self regs = .error e := by
  induction regs generalizing self with
  | nil => cases hmem
  | cons q t ih =>
    obtain ⟨p, m⟩ := q
    rcases List.mem_cons.mp hmem with hq | hq
    · cases m with
      | GET => exact absurd (congrArg Prod.snd hq) (by simpa using hbad.1)
      | POST => exact absurd (congrArg Prod.snd hq) (by simpa using hbad.2.1)
      | PUT => exact absurd (congrArg Prod.snd hq) (by simpa using hbad.2.2)
      | DELETE => exact ⟨_, rfl⟩
      | PATCH => exact ⟨_, rfl⟩
    · cases m with
      | GET => exact ih _ hq
      | POST => exact ih _ hq
      | PUT => exact ih _ hq
      | DELETE => exact ⟨_, rfl⟩
      | PATCH => exact ⟨_, rfl⟩


/-! ### Concrete scenarios used by witnesses and counterexamples -/

/-- A render engine that renders an empty page and stages nothing. -/
def trivialRender : RenderFn :=
  fun _ _ ctx => .ok ({ status := 200, headers := [], body := "" }, ctx)

/-- A handle state around `trivialRender`. -/
def trivialState : RenderHandleState :=
  { config := {}, renderFn := trivialRender }

/-- `POST /api/get_data` with `Accept: text/html` and `Referer: /form`
(spec Scenario A). -/
def reqA : Request :=
  { parts := { requestId := 1, uri := { pathAndQuery := some "/api/get_data" },
               headers := [("accept", hv "text/html"), ("referer", hv "/form")] },
    body := "" }

/-- A server function returning 200 with no headers and staging nothing. -/
def svcPlain : ServerFnService :=
  fun _ ctx => ({ status := 200, headers := [], body := "ok" }, ctx)

/-- A server function returning 200 with no headers while staging a
`location` header into the server context. -/
def svcStagesLoc : ServerFnService :=
  fun _ ctx =>
    ({ status := 200, headers := [], body := "ok" },
     { ctx with responseHeaders := ctx.responseHeaders ++ [("location", hv "/staged")] })

/-- Registry resolving only `/api/get_data`, to `svcPlain`. -/
def regPlain : String → Option ServerFnService :=
  fun p => if p == "/api/get_data" then some svcPlain else none

/-- Registry resolving only `/api/get_data`, to `svcStagesLoc`. -/
def regStagesLoc : String → Option ServerFnService :=
  fun p => if p == "/api/get_data" then some svcStagesLoc else none

/-- `GET /` with `Accept: application/json` (spec Scenario B). -/
def reqJson : Request :=
  { parts := { requestId := 2, uri := { pathAndQuery := some "/" },
               headers := [("accept", hv "application/json")] },
    body := "" }

/-- A request with `Accept: application/json` and a URI with neither path
nor query. -/
def reqNoUriJson : Request :=
  { parts := { requestId := 3, uri := { pathAndQuery := none },
               headers := [("accept", hv "application/json")] },
    body := "" }

/-- A request with `Accept: text/html` and a URI with neither path nor
query. -/
def reqNoUriHtml : Request :=
  { parts := { requestId := 4, uri := { pathAndQuery := none },
               headers := [("accept", hv "text/html")] },
    body := "" }

/-- `GET /` accepting HTML, for render scenarios. -/
def reqHtml : Request :=
  { parts := { requestId := 5, uri := { pathAndQuery := some "/" },
               headers := [("accept", hv "text/html")] },
    body := "" }

/-- A render engine that stages one `set-cookie` header. -/
def renderOneCookie : RenderFn :=
  fun _ _ ctx =>
    .ok ({ status := 200, headers := [("content-type", hv "text/html")], body := "<html>" },
      { ctx with responseHeaders := [("set-cookie", hv "a=1")] })

/-- A handle state around `renderOneCookie`. -/
def oneCookieState : RenderHandleState :=
  { config := {}, renderFn := renderOneCookie }

/-- A render engine that stages two values under the `set-cookie` name. -/
def renderTwoCookies : RenderFn :=
  fun _ _ ctx =>
    .ok ({ status := 200, headers := [("content-type", hv "text/html")], body := "<html>" },
      { ctx with responseHeaders := [("set-cookie", hv "a=1"), ("set-cookie", hv "b=2")] })

/-- A handle state around `renderTwoCookies`. -/
def twoCookiesState : RenderHandleState :=
  { config := {}, renderFn := renderTwoCookies }


/-! ### Claim theorems -/

/-- C4: every render-path request carrying an Accept header whose value
does not contain "text/html" under case-insensitive comparison is answered
with status 406 and an empty body, before URI validation, before a context
is constructed and before the renderer runs; a request with no Accept
header is never rejected by this check. -/
theorem render_accept_check_spec (state : RenderHandleState) (request : Request) :
    ((∀ v, request.parts.headers.get "accept" = some v →
        ∀ s, headerValueToStr v = some s →
          containsSubstr (asciiLower s) "text/html" = false) →
      request.parts.headers.get "accept" ≠ none →
      (render_handler state request).outcome = RenderOutcome.notAcceptable ∧
      (render_handler state request).response.status = 406 ∧
      (render_handler state request).response.body = "" ∧
      (render_handler state request).contextConstructed = false ∧
      (render_handler state request).renderInvoked = false) ∧
    (request.parts.headers.get "accept" = none →
      (render_handler state request).outcome ≠ RenderOutcome.notAcceptable) := by
  constructor
  · intro hval hpres
    cases hvv : request.parts.headers.get "accept" with
    | none => exact absurd hvv hpres
    | some v =>
      have hacc : renderAccepts request.parts.headers = false := by
        rw [renderAccepts, hvv]
        cases hs : headerValueToStr v with
        | none => simp [hs]
        | some s => simp [hs, hval v hvv s hs]
      simp [render_handler, hacc]
  · intro hnone
    have hacc : renderAccepts request.parts.headers = true := by
      rw [renderAccepts, hnone]
    simp only [render_handler, hacc, if_true]
    cases huri : request.parts.uri.pathAndQuery with
    | none => simp [huri]
    | some url =>
      cases hr : state.renderFn url state.config
          (DioxusServerContext.from_shared_parts request.parts) with
      | error e => simp [huri, hr]
      | ok p =>
        obtain ⟨sr, c⟩ := p
        simp [huri, hr]

/-- C4 witness: Scenario B — `GET /` with `Accept: application/json` on the
render path yields 406 with an empty body. -/
theorem render_accept_check_spec_witness :
    (render_handler trivialState reqJson).outcome = RenderOutcome.notAcceptable ∧
    (render_handler trivialState reqJson).response.status = 406 ∧
    (render_handler trivialState reqJson).response.body = "" := by
  have h := (render_accept_check_spec trivialState reqJson).1 ?early ?present
  · exact ⟨h.1, h.2.1, h.2.2.1⟩
  case early =>
    intro v hvv s hs
    rw [show reqJson.parts.headers.get "accept" = some (hv "application/json") from rfl] at hvv
    injection hvv with hveq
    subst hveq
    rw [show headerValueToStr (hv "application/json") = some "application/json" from rfl] at hs
    injection hs with hseq
    subst hseq
    decide
  case present => decide

/-- C8 counterexample: a request whose URI lacks both path and query but
whose Accept header is `application/json` is answered 406 by the Accept
check, not 400 as the claim states for every such request. -/
theorem render_bad_uri_counterexample :
    reqNoUriJson.parts.uri.pathAndQuery = none ∧
    (render_handler trivialState reqNoUriJson).response.status = 406 ∧
    ¬ (render_handler trivialState reqNoUriJson).response.status = 400 := by decide

/-- C8 amended: every render-path request that passes the Accept check and
whose URI has neither path nor query is answered 400 Bad Request, without
constructing a server context and without invoking the renderer. -/
theorem render_bad_uri_spec (state : RenderHandleState) (request : Request)
    (hacc : renderAccepts request.parts.headers = true)
    (huri : request.parts.uri.pathAndQuery = none) :
    (render_handler state request).outcome = RenderOutcome.badUri ∧
    (render_handler state request).response.status = 400 ∧
    (render_handler state request).contextConstructed = false ∧
    (render_handler state request).renderInvoked = false := by
  simp [render_handler, hacc, huri]

/-- C8 witness: an HTML-accepting request with a URI lacking path and query
is answered 400 without construction or rendering. -/
theorem render_bad_uri_spec_witness :
    (render_handler trivialState reqNoUriHtml).outcome = RenderOutcome.badUri ∧
    (render_handler trivialState reqNoUriHtml).response.status = 400 ∧
    (render_handler trivialState reqNoUriHtml).contextConstructed = false ∧
    (render_handler trivialState reqNoUriHtml).renderInvoked = false :=
  render_bad_uri_spec trivialState reqNoUriHtml (by decide) (by decide)

/-- C5: a function-path request whose path has no registered handler is
answered 400; the body contains the literal requested path and the
diagnostic guidance; no server context is constructed and no function is
invoked. -/
theorem unregistered_function_spec (registry : String → Option ServerFnService)
    (providers : List Factory) (path : String) (req : Request)
    (h : registry path = none) :
    (handle_server_fns_inner registry providers path req).response.status = 400 ∧
    containsSubstr (handle_server_fns_inner registry providers path req).response.body
      path = true ∧
    containsSubstr (handle_server_fns_inner registry providers path req).response.body
      notFoundDiagnostic = true ∧
    (handle_server_fns_inner registry providers path req).contextConstructed = false ∧
    (handle_server_fns_inner registry providers path req).functionInvoked = false := by
  have hbody : (handle_server_fns_inner registry providers path req).response.body =
      notFoundBody path := by
    simp [handle_server_fns_inner, h]
  refine ⟨by simp [handle_server_fns_inner, h], ?_, ?_,
    by simp [handle_server_fns_inner, h], by simp [handle_server_fns_inner, h]⟩
  · rw [hbody]
    simp only [containsSubstr, decide_eq_true_eq, notFoundBody]
    exact ⟨"No server function found for path: ".toList, notFoundDiagnostic.toList,
      by simp [List.append_assoc]⟩
  · rw [hbody]
    simp only [containsSubstr, decide_eq_true_eq, notFoundBody]
    exact ⟨("No server function found for path: " ++ path).toList, [], by simp⟩

/-- C5 witness: Scenario C — `GET /no/such/fn` with no registered handler
yields 400 and a body naming the path, with no context and no invocation. -/
theorem unregistered_function_spec_witness :
    (handle_server_fns_inner regPlain [] "/no/such/fn" reqHtml).response.status = 400 ∧
    containsSubstr (handle_server_fns_inner regPlain [] "/no/such/fn" reqHtml).response.body
      "/no/such/fn" = true ∧
    (handle_server_fns_inner regPlain [] "/no/such/fn" reqHtml).contextConstructed = false ∧
    (handle_server_fns_inner regPlain [] "/no/such/fn" reqHtml).functionInvoked = false := by
  have h := unregistered_function_spec regPlain [] "/no/such/fn" reqHtml rfl
  exact ⟨h.1, h.2.1, h.2.2.2.1, h.2.2.2.2⟩


/-- Structure of a dispatch that found a registered service: the response
is the redirect-checked function response with the context's staged headers
drained into it, the context handed to the service is the freshly injected
one, and the context ends drained. -/
theorem handle_registered_response (registry : String → Option ServerFnService)
    (providers : List Factory) (path : String) (req : Request)
    (service : ServerFnService) (hreg : registry path = some service) :
    (handle_server_fns_inner registry providers path req).response =
      { redirectStep (captureAcceptsHtml req.parts.headers) (req.parts.headers.get "referer")
          (service req (provider_injection providers (DioxusServerContext.new req.parts))).1 with
        headers := HeaderMap.extendDrained
          (redirectStep (captureAcceptsHtml req.parts.headers) (req.parts.headers.get "referer")
            (service req (provider_injection providers (DioxusServerContext.new req.parts))).1).headers
          (service req
            (provider_injection providers (DioxusServerContext.new req.parts))).2.responseHeaders } ∧
    (handle_server_fns_inner registry providers path req).contextAfter =
      some { (service req (provider_injection providers (DioxusServerContext.new req.parts))).2 with
             responseHeaders := [] } ∧
    (handle_server_fns_inner registry providers path req).contextAtInvocation =
      some (provider_injection providers (DioxusServerContext.new req.parts)) ∧
    (handle_server_fns_inner registry providers path req).contextConstructed = true ∧
    (handle_server_fns_inner registry providers path req).functionInvoked = true := by
  unfold handle_server_fns_inner
  rw [hreg]
  exact ⟨rfl, rfl, rfl, rfl, rfl⟩

/-- C9: the function-path accepts-HTML capture needs a present,
`to_str`-convertible Accept value containing "text/html" byte-for-byte: an
absent Accept, a non-convertible value, or a value containing the phrase in
a different letter case all capture `false`, and with a `false` capture the
redirect rewrite leaves the function response untouched; the render path,
by contrast, lowercases before checking, so `TEXT/HTML` passes there. -/
theorem fn_accept_case_sensitive_spec :
    (∀ headers : HeaderMap, headers.get "accept" = none →
      captureAcceptsHtml headers = false) ∧
    (∀ (headers : HeaderMap) v, headers.get "accept" = some v →
      headerValueToStr v = none → captureAcceptsHtml headers = false) ∧
    (∀ (headers : HeaderMap) v s, headers.get "accept" = some v →
      headerValueToStr v = some s → containsSubstr s "text/html" = false →
      captureAcceptsHtml headers = false) ∧
    (∀ (referrer : Option HeaderValue) (res : Response),
      redirectStep false referrer res = res) ∧
    (captureAcceptsHtml [("accept", hv "TEXT/HTML")] = false ∧
      renderAccepts [("accept", hv "TEXT/HTML")] = true) := by
  refine ⟨?_, ?_, ?_, ?_, by decide⟩
  · intro headers hnone
    simp [captureAcceptsHtml, hnone]
  · intro headers v hvv hs
    simp [captureAcceptsHtml, hvv, hs]
  · intro headers v s hvv hs hc
    simp [captureAcceptsHtml, hvv, hs, hc]
  · intro referrer res
    rfl

/-- C9 witness: a non-visible-ASCII Accept value captures `false` and the
redirect rewrite is then the identity. -/
theorem fn_accept_case_sensitive_spec_witness :
    captureAcceptsHtml [("accept", [200])] = false ∧
    redirectStep false (some (hv "/form")) { status := 200, headers := [], body := "" } =
      { status := 200, headers := [], body := "" } := by
  refine ⟨fn_accept_case_sensitive_spec.2.1 [("accept", [200])] [200] rfl (by decide),
    fn_accept_case_sensitive_spec.2.2.2.1 (some (hv "/form"))
      { status := 200, headers := [], body := "" }⟩

/-- C1 counterexample: for `POST /api/get_data` with `Accept: text/html`,
`Referer: /form`, a function response with no Location header, but a
function that stages a `location` header in the context, the final response
has status 302 yet its Location is the staged value, not the Referer — the
claim's "Location set to R" fails. -/
theorem redirect_location_counterexample :
    captureAcceptsHtml reqA.parts.headers = true ∧
    reqA.parts.headers.get "referer" = some (hv "/form") ∧
    (svcStagesLoc reqA (provider_injection []
      (DioxusServerContext.new reqA.parts))).1.headers.get "location" = none ∧
    (handle_server_fns_inner regStagesLoc [] "/api/get_data" reqA).response.status = 302 ∧
    (handle_server_fns_inner regStagesLoc [] "/api/get_data" reqA).response.headers.get
      "location" = some (hv "/staged") ∧
    ¬ (handle_server_fns_inner regStagesLoc [] "/api/get_data" reqA).response.headers.get
      "location" = some (hv "/form") := by decide

/-- C1 amended: with Accept containing "text/html", a present Referer R and
a function response carrying no Location header, the final response has
status 302 and Location R provided the context staged no `location` header
(a staged `location` overrides it in the merge); if the function response
already carries a Location, the redirect heuristic leaves the response
entirely unchanged. -/
theorem redirect_heuristic_spec (registry : String → Option ServerFnService)
    (providers : List Factory) (path : String) (req : Request)
    (service : ServerFnService) (res0 : Response) (ctx2 : DioxusServerContext)
    (R : HeaderValue)
    (hreg : registry path = some service)
    (hrun : service req (provider_injection providers (DioxusServerContext.new req.parts)) =
      (res0, ctx2))
    (hacc : captureAcceptsHtml req.parts.headers = true)
    (href : req.parts.headers.get "referer" = some R) :
    (res0.headers.get "location" = none →
      ctx2.responseHeaders.all (fun s => s.1 != "location") = true →
      (handle_server_fns_inner registry providers path req).response.status = 302 ∧
      (handle_server_fns_inner registry providers path req).response.headers.get "location" =
        some R) ∧
    (∀ X, res0.headers.get "location" = some X →
      redirectStep (captureAcceptsHtml req.parts.headers)
        (req.parts.headers.get "referer") res0 = res0) := by
  constructor
  · intro hloc hstage
    have hh := (handle_registered_response registry providers path req service hreg).1
    rw [hrun] at hh
    have hred : redirectStep (captureAcceptsHtml req.parts.headers)
        (req.parts.headers.get "referer") res0 =
        { res0 with status := 302, headers := HeaderMap.insert res0.headers "location" R } := by
      rw [hacc, href]
      simp [redirectStep, hloc]
    rw [hred] at hh
    constructor
    · rw [hh]
    · rw [hh]
      show HeaderMap.get (HeaderMap.extendDrained
        (HeaderMap.insert res0.headers "location" R) ctx2.responseHeaders) "location" = some R
      rw [HeaderMap.get_extendDrained_of_not_staged _ _ _ hstage,
        HeaderMap.get_insert_self]
  · intro X hX
    rw [hacc, href]
    simp [redirectStep, hX]

/-- C1 witness: Scenario A — `POST /api/get_data`, `Accept: text/html`,
`Referer: /form`, function returns 200 with no Location and stages nothing
→ final response is 302 with `Location: /form`. -/
theorem redirect_heuristic_spec_witness :
    (handle_server_fns_inner regPlain [] "/api/get_data" reqA).response.status = 302 ∧
    (handle_server_fns_inner regPlain [] "/api/get_data" reqA).response.headers.get
      "location" = some (hv "/form") := by
  exact (redirect_heuristic_spec regPlain [] "/api/get_data" reqA svcPlain
    { status := 200, headers := [], body := "ok" }
    (provider_injection [] (DioxusServerContext.new reqA.parts))
    (hv "/form") rfl rfl (by decide) rfl).1 rfl rfl


/-- C2 counterexample: on the render path the staged headers are copied
into the response by iteration, not drained — after the merge the context
still holds the staged `set-cookie` entry, so the staged set was consumed
without being cleared, contrary to the claim that the gateway consumes
staged headers only by draining on both paths. -/
theorem render_not_drained_counterexample :
    (render_handler oneCookieState reqHtml).response.headers.get "set-cookie" =
      some (hv "a=1") ∧
    (render_handler oneCookieState reqHtml).contextAfter =
      some { requestParts := reqHtml.parts,
             responseHeaders := [("set-cookie", hv "a=1")], injected := [] } ∧
    [(("set-cookie" : HeaderName), hv "a=1")] ≠ ([] : HeaderMap) := by decide

/-- C2 amended: draining the staged headers is consuming (a second drain
immediately after the first yields the empty set), and the function path
consumes staged headers by draining them — after dispatch the context's
staged set is empty; the render path, however, copies the staged headers
into the response by iteration and leaves them in place. -/
theorem staged_drain_spec :
    (∀ m : HeaderMap, (HeaderMap.drain (HeaderMap.drain m).2).1 = []) ∧
    (∀ (registry : String → Option ServerFnService) (providers : List Factory)
        (path : String) (req : Request) (service : ServerFnService),
      registry path = some service →
      ∃ c, (handle_server_fns_inner registry providers path req).contextAfter = some c ∧
        c.responseHeaders = []) ∧
    (∀ (state : RenderHandleState) (request : Request) (url : String)
        (streamRes : Response) (ctx2 : DioxusServerContext),
      renderAccepts request.parts.headers = true →
      request.parts.uri.pathAndQuery = some url →
      state.renderFn url state.config (DioxusServerContext.from_shared_parts request.parts) =
        .ok (streamRes, ctx2) →
      (render_handler state request).contextAfter = some ctx2) := by
  refine ⟨fun m => rfl, ?_, ?_⟩
  · intro registry providers path req service hreg
    exact ⟨_, (handle_registered_response registry providers path req service hreg).2.1, rfl⟩
  · intro state request url streamRes ctx2 hacc huri hrender
    simp [render_handler, hacc, huri, hrender]

/-- C2 witness: a second drain after a drain is empty, and a dispatched
function request ends with its context's staged headers drained. -/
theorem staged_drain_spec_witness :
    (HeaderMap.drain (HeaderMap.drain [(("x" : HeaderName), hv "1")]).2).1 = [] ∧
    ∃ c, (handle_server_fns_inner regStagesLoc [] "/api/get_data" reqA).contextAfter =
      some c ∧ c.responseHeaders = [] := by
  exact ⟨staged_drain_spec.1 [(("x" : HeaderName), hv "1")],
    staged_drain_spec.2.1 regStagesLoc [] "/api/get_data" reqA svcStagesLoc rfl⟩

/-- C3 counterexample: two values staged under `set-cookie` during
rendering; the earlier staged pair is absent from the final response — the
render-path merge inserts per entry and keeps only the last value per
name. -/
theorem header_merge_counterexample :
    (render_handler twoCookiesState reqHtml).contextAfter =
      some { requestParts := reqHtml.parts,
             responseHeaders := [("set-cookie", hv "a=1"), ("set-cookie", hv "b=2")],
             injected := [] } ∧
    ("set-cookie", hv "a=1") ∉
      (render_handler twoCookiesState reqHtml).response.headers ∧
    HeaderMap.getAll (render_handler twoCookiesState reqHtml).response.headers
      "set-cookie" = [hv "b=2"] := by decide

/-- C3 amended: on the function path every header pair staged in the
context appears in the final response (duplicate names included); on the
render path, for each staged name exactly the last staged value appears in
the final response, and names never staged keep the stream response's
values. -/
theorem header_merge_spec :
    (∀ (registry : String → Option ServerFnService) (providers : List Factory)
        (path : String) (req : Request) (service : ServerFnService)
        (res0 : Response) (ctx2 : DioxusServerContext),
      registry path = some service →
      service req (provider_injection providers (DioxusServerContext.new req.parts)) =
        (res0, ctx2) →
      ∀ e ∈ ctx2.responseHeaders,
        e ∈ (handle_server_fns_inner registry providers path req).response.headers) ∧
    (∀ (state : RenderHandleState) (request : Request) (url : String)
        (streamRes : Response) (ctx2 : DioxusServerContext),
      renderAccepts request.parts.headers = true →
      request.parts.uri.pathAndQuery = some url →
      state.renderFn url state.config (DioxusServerContext.from_shared_parts request.parts) =
        .ok (streamRes, ctx2) →
      ∀ n : HeaderName,
        (∀ v, (HeaderMap.getAll ctx2.responseHeaders n).getLast? = some v →
          HeaderMap.getAll (render_handler state request).response.headers n = [v]) ∧
        (HeaderMap.getAll ctx2.responseHeaders n = [] →
          HeaderMap.getAll (render_handler state request).response.headers n =
            HeaderMap.getAll streamRes.headers n)) := by
  constructor
  · intro registry providers path req service res0 ctx2 hreg hrun e he
    have hh := (handle_registered_response registry providers path req service hreg).1
    rw [hrun] at hh
    rw [hh]
    exact HeaderMap.mem_extendDrained_of_mem_staged _ _ e he
  · intro state request url streamRes ctx2 hacc huri hrender n
    have hresp : (render_handler state request).response.headers =
        ctx2.responseHeaders.foldl (fun h e => HeaderMap.insert h e.1 e.2)
          streamRes.headers := by
      simp [render_handler, hacc, huri, hrender]
    rw [hresp, foldl_insert_getAll]
    constructor
    · intro v hlast
      rw [hlast]
      rfl
    · intro hnil
      rw [hnil]
      rfl

/-- C3 witness: a header pair staged during function invocation is present
in the final function-path response. -/
theorem header_merge_spec_witness :
    ("location", hv "/staged") ∈
      (handle_server_fns_inner regStagesLoc [] "/api/get_data" reqA).response.headers := by
  exact header_merge_spec.1 regStagesLoc [] "/api/get_data" reqA svcStagesLoc
    { status := 200, headers := [], body := "ok" }
    { requestParts := reqA.parts, responseHeaders := [("location", hv "/staged")],
      injected := [] }
    rfl rfl ("location", hv "/staged") (by decide)


/-- C6: a request reaching a registered function handler observes exactly N
injected values in its freshly constructed context — one per registry
entry, each produced by invoking the corresponding factory for that
request — and two requests observe the same materialised instance at entry
i exactly when the factory produces the same handle for both requests. -/
theorem context_injection_spec (registry : String → Option ServerFnService)
    (providers : List Factory) (path : String) (req req2 : Request)
    (service : ServerFnService)
    (hreg : registry path = some service) :
    ∃ c, (handle_server_fns_inner registry providers path req).contextAtInvocation = some c ∧
      c.injected.length = providers.length ∧
      (∀ i, (hi : i < providers.length) →
        c.injected[i]? = some (providers[i] req.parts.requestId)) ∧
      (∀ c2, (handle_server_fns_inner registry providers path req2).contextAtInvocation =
          some c2 →
        ∀ i, (hi : i < providers.length) →
          (c.injected[i]? = c2.injected[i]? ↔
            providers[i] req.parts.requestId = providers[i] req2.parts.requestId)) := by
  have hgi : ∀ (r : Request) (i : Nat) (hi : i < providers.length),
      (provider_injection providers (DioxusServerContext.new r.parts)).injected[i]? =
        some (providers[i] r.parts.requestId) := by
    intro r i hi
    rw [provider_injection_eq]
    show ((DioxusServerContext.new r.parts).injected ++
      providers.map (fun f => f r.parts.requestId))[i]? = _
    simp [DioxusServerContext.new, List.getElem?_map, List.getElem?_eq_getElem hi]
  refine ⟨provider_injection providers (DioxusServerContext.new req.parts),
    (handle_registered_response registry providers path req service hreg).2.2.1, ?_, ?_, ?_⟩
  · rw [provider_injection_eq]
    show ((DioxusServerContext.new req.parts).injected ++
      providers.map (fun f => f req.parts.requestId)).length = providers.length
    simp [DioxusServerContext.new]
  · intro i hi
    exact hgi req i hi
  · intro c2 hc2 i hi
    have h2 := (handle_registered_response registry providers path req2 service hreg).2.2.1
    rw [hc2] at h2
    have hc2eq : c2 = provider_injection providers (DioxusServerContext.new req2.parts) :=
      Option.some.inj h2
    subst hc2eq
    rw [hgi req i hi, hgi req2 i hi]
    exact Option.some_inj

/-- C6 witness: with a two-entry registry the context handed to the
function holds exactly two injected values. -/
theorem context_injection_spec_witness :
    ∃ c, (handle_server_fns_inner regPlain [fun n => n, fun _ => 99] "/api/get_data"
      reqA).contextAtInvocation = some c ∧ c.injected.length = 2 := by
  obtain ⟨c, hc, hlen, -, -⟩ := context_injection_spec regPlain [fun n => n, fun _ => 99]
    "/api/get_data" reqA reqHtml svcPlain rfl
  exact ⟨c, hc, hlen⟩

/-- C7: registering server functions adds exactly one route per registered
function at its exact path and method when the method is GET, POST or PUT,
and the presence of any other method makes router construction itself fail
(the `unimplemented!` panic), not a request-time failure. -/
theorem route_registration_spec (regs : List (String × Method)) (self : Router) :
    ((∀ pm ∈ regs, pm.2 = Method.GET ∨ pm.2 = Method.POST ∨ pm.2 = Method.PUT) →
      register_server_functions_with_context self regs =
        .ok { self with fnRoutes :=
              self.fnRoutes ++ regs.map (fun pm => { path := pm.1, method := pm.2 }) }) ∧
    (∀ pm ∈ regs, pm.2 ≠ Method.GET → pm.2 ≠ Method.POST → pm.2 ≠ Method.PUT →
      ∃ e, register_server_functions_with_context self regs = .error e) :=
  ⟨register_ok_of_allowed regs self,
    fun pm hm h1 h2 h3 => register_error_of_bad regs self pm hm ⟨h1, h2, h3⟩⟩

/-- C7 witness: three functions with GET, POST and PUT register three exact
routes; adding a DELETE registration makes construction fail. -/
theorem route_registration_spec_witness :
    register_server_functions_with_context Router.new
        [("/api/a", Method.GET), ("/api/b", Method.POST), ("/api/c", Method.PUT)] =
      .ok { staticRoutes := [], fallback := false,
            fnRoutes := [{ path := "/api/a", method := Method.GET },
                         { path := "/api/b", method := Method.POST },
                         { path := "/api/c", method := Method.PUT }] } ∧
    ∃ e, register_server_functions_with_context Router.new
        [("/api/a", Method.GET), ("/api/d", Method.DELETE)] = .error e := by
  constructor
  · exact (route_registration_spec
      [("/api/a", Method.GET), ("/api/b", Method.POST), ("/api/c", Method.PUT)]
      Router.new).1 (by decide)
  · exact (route_registration_spec [("/api/a", Method.GET), ("/api/d", Method.DELETE)]
      Router.new).2 ("/api/d", Method.DELETE) (by decide) (by decide) (by decide) (by decide)

/-- C10: when the configuration fails to convert, `serve_dioxus_application`
still returns a router (the error is only logged) that serves the static
assets and all server-function routes but has no render fallback, so a
request matching neither a function route nor a static nest is simply not
handled by the gateway. -/
theorem serve_app_config_error_spec (assets : List String)
    (regs : List (String × Method)) (err : String) (server : Router)
    (hreg : register_server_functions_with_context (serve_static_assets Router.new assets)
      regs = .ok server) :
    serve_dioxus_application Router.new assets regs (.error err) = .ok server ∧
    server.fallback = false ∧
    server.staticRoutes = assets ∧
    server.fnRoutes = regs.map (fun pm => { path := pm.1, method := pm.2 }) ∧
    (∀ p m, (∀ en ∈ server.fnRoutes, ¬ (en.path = p ∧ en.method = m)) →
      (∀ q ∈ assets, strStartsWith p q = false) →
      server.handles p m = false) := by
  have hser := register_ok_inv regs _ server hreg
  have hfall : server.fallback = false := by
    rw [hser]
    rfl
  have hstat : server.staticRoutes = assets := by
    rw [hser]
    show (serve_static_assets Router.new assets).staticRoutes = assets
    simp [serve_static_assets, Router.new]
  have hfnr : server.fnRoutes = regs.map (fun pm => { path := pm.1, method := pm.2 }) := by
    rw [hser]
    show (serve_static_assets Router.new assets).fnRoutes ++ _ = _
    simp [serve_static_assets, Router.new]
  refine ⟨?_, hfall, hstat, hfnr, ?_⟩
  · unfold serve_dioxus_application
    rw [hreg]
  · intro p m h1 h2
    have hfn : server.fnRoutes.any (fun en => en.path == p && en.method == m) = false := by
      rw [List.any_eq_false]
      intro en hen
      cases hp : (en.path == p) with
      | false => simp
      | true =>
        cases hm2 : (en.method == m) with
        | false => simp
        | true =>
          exact absurd ⟨by simpa using hp, by simpa using hm2⟩ (h1 en hen)
    have hst : server.staticRoutes.any (fun q => strStartsWith p q) = false := by
      rw [List.any_eq_false]
      intro q hq
      rw [hstat] at hq
      simp [h2 q hq]
    simp [Router.handles, hfn, hst, hfall]

/-- C10 witness: one asset nest and one GET function route with a failed
configuration conversion — the application router is returned without a
fallback and does not handle an unrelated page request. -/
theorem serve_app_config_error_spec_witness :
    serve_dioxus_application Router.new ["/assets"] [("/api/a", Method.GET)]
        (.error "bad config") =
      .ok { staticRoutes := ["/assets"],
            fnRoutes := [{ path := "/api/a", method := Method.GET }],
            fallback := false } ∧
    Router.handles
      { staticRoutes := ["/assets"],
        fnRoutes := [{ path := "/api/a", method := Method.GET }],
        fallback := false } "/other/page" Method.GET = false := by
  have h := serve_app_config_error_spec ["/assets"] [("/api/a", Method.GET)] "bad config"
    { staticRoutes := ["/assets"],
      fnRoutes := [{ path := "/api/a", method := Method.GET }],
      fallback := false } rfl
  exact ⟨h.1, h.2.2.2.2 "/other/page" Method.GET (by decide) (by decide)⟩

end DioxusGateway
